import Mathlib

/-!
Verification of the macemu standalone WebRTC streaming server
(`web-streaming/server/standalone_server.cpp`, `ipc_protocol.h`,
`h264_encoder.h`) against its natural-language specification.

The C++ code is embedded shallowly: machine integers become `Nat` (or
`Int`) with explicit `% 2 ^ w` where overflow matters, byte buffers become
`List Nat` or index functions, and the event-driven parts become explicit
state machines stepped over event lists.
-/

/- ### Audio ring (`ipc_protocol.h`, `MacEmuAudioBuffer`) -/

/-- The audio-ring header fields read by the helpers of `ipc_protocol.h`.
`write_pos` and `read_pos` are `uint32_t` values (kept `< 2 ^ 32` by
hypothesis); `buffer_size` is the ring capacity field. -/
structure MacEmuAudioBuffer where
  buffer_size : Nat
  write_pos : Nat
  read_pos : Nat

/-- `MACEMU_AUDIO_BUFFER_SIZE` (65536 bytes), the capacity the protocol
always stores in `buffer_size`. -/
def MACEMU_AUDIO_BUFFER_SIZE : Nat := 65536

/-- `macemu_audio_available` (ipc_protocol.h lines 162-166):
`(write_val - read_val) % buf->buffer_size` where the subtraction wraps in
`uint32_t` arithmetic. -/
def macemu_audio_available (buf : MacEmuAudioBuffer) : Nat :=
  ((buf.write_pos + 2 ^ 32 - buf.read_pos) % 2 ^ 32) % buf.buffer_size

/-- `macemu_audio_free` (ipc_protocol.h lines 169-171):
`buf->buffer_size - macemu_audio_available(buf) - 1`. -/
def macemu_audio_free (buf : MacEmuAudioBuffer) : Nat :=
  buf.buffer_size - macemu_audio_available buf - 1

/- ### Emulator supervisor (`check_emulator_status`, `video_loop`) -/

/-- Outcome of the non-blocking `waitpid(pid, WNOHANG)` on the emulator
child: still running, exited with `WEXITSTATUS` code, or killed by a
signal. -/
inductive WaitResult where
  | running : WaitResult
  | exited (code : Nat) : WaitResult
  | signaled (sig : Nat) : WaitResult
deriving DecidableEq

/-- `check_emulator_status` (standalone_server.cpp lines 461-486): returns
`0` while the child runs, the exit code when it exited normally, and `-1`
when there is no child or it died by a signal (`exit_code` keeps its
initial `-1` in that branch). -/
def check_emulator_status (pid : Int) (w : WaitResult) : Int :=
  if pid ≤ 0 then -1
  else
    match w with
    | WaitResult.running => 0
    | WaitResult.exited code => if (code : Int) ≥ 0 then (code : Int) else -1
    | WaitResult.signaled _ => -1

/-- The supervisor branch of `video_loop` (standalone_server.cpp lines
1700-1709): after `check_emulator_status`, when the status is a positive
exit code, auto-start is enabled and the code is 75, sleep 500 ms and call
`start_emulator`.  Returns `some delay_ms` when a restart is performed,
`none` otherwise. -/
def supervisor_restart (pid : Int) (w : WaitResult) (auto_start : Bool) : Option Nat :=
  let exit_code := check_emulator_status pid w
  if exit_code > 0 ∧ auto_start = true then
    if exit_code = 75 then some 500 else none
  else none

/- ### Control socket (`send_to_emulator`, `close_emulator_connection`) -/

/-- Control-socket connection state: the listening socket fd
(`g_listen_socket`), the accepted socket fd (`g_control_socket`, `-1` when
absent) and the `g_emulator_connected` flag. -/
structure ControlConn where
  listen_socket : Int
  control_socket : Int
  connected : Bool
deriving DecidableEq

/-- `send_to_emulator` (standalone_server.cpp lines 328-334): appends a
newline and writes the line; `sent` is the byte count `send` reported.
The function only reports success or failure; it does not modify the
connection state. -/
def send_to_emulator (st : ControlConn) (msg : List Char) (sent : Int) :
    Bool × ControlConn :=
  if st.control_socket < 0 then (false, st)
  else (decide (sent = (msg.length : Int) + 1), st)

/-- `close_emulator_connection` (standalone_server.cpp lines 311-317):
closes the accepted socket (fd becomes `-1`) and clears the connected
flag; the listening socket is untouched. -/
def close_emulator_connection (st : ControlConn) : ControlConn :=
  { st with control_socket := -1, connected := false }

/- ### Frame fan-out (`WebRTCServer::send_frame`) -/

/-- The per-peer fields `send_frame` inspects: id, `ready` flag, whether
`video_track` is non-null, and `video_track->isOpen()`. -/
structure PeerView where
  id : String
  ready : Bool
  has_track : Bool
  track_open : Bool

/-- The fan-out loop of `WebRTCServer::send_frame` (standalone_server.cpp
lines 1413-1432).  `fails pid i = true` models `video_track->send` raising
an exception for packet `i` to peer `pid`; the exception is caught and the
loop continues with the next packet and the next peer.  Returns the list
of (peer id, packet index) pairs whose send completed. -/
def send_frame_deliveries (peers : List PeerView) (npackets : Nat)
    (fails : String → Nat → Bool) : List (String × Nat) :=
  peers.flatMap fun p =>
    if p.ready && p.has_track && p.track_open then
      (List.range npackets).filterMap fun i =>
        if fails p.id i then none else some (p.id, i)
    else []

/- ### ICE candidate queuing (`WebRTCServer::process_signaling`) -/

/-- The per-peer signaling fields `process_signaling` manipulates:
`has_remote_description`, the `pending_candidates` queue, and (for the
model) the ordered list of candidates passed to
`pc->addRemoteCandidate`. -/
structure PeerSignalState where
  has_remote_description : Bool
  pending_candidates : List (String × String)
  applied_candidates : List (String × String)
deriving DecidableEq

/-- A signaling message for an existing peer: a `candidate` message
carrying the `candidate` and `mid` fields, or an `answer` whose
`setRemoteDescription` either succeeds (`set_ok = true`) or raises (the
handler then returns early). -/
inductive SignalEvent where
  | candidate (cand mid : String)
  | answer (set_ok : Bool)

/-- The `answer` and `candidate` branches of
`WebRTCServer::process_signaling` (standalone_server.cpp lines
1538-1607): an empty candidate string is ignored; a candidate is applied
immediately when the remote description is set and queued otherwise; a
successful answer sets the remote description, then applies the queued
candidates front to back and clears the queue. -/
def process_signaling_step (p : PeerSignalState) (e : SignalEvent) :
    PeerSignalState :=
  match e with
  | SignalEvent.candidate cand mid =>
    if cand = "" then p
    else if p.has_remote_description then
      { p with applied_candidates := p.applied_candidates ++ [(cand, mid)] }
    else
      { p with pending_candidates := p.pending_candidates ++ [(cand, mid)] }
  | SignalEvent.answer set_ok =>
    if set_ok then
      { has_remote_description := true
        pending_candidates := []
        applied_candidates := p.applied_candidates ++ p.pending_candidates }
    else p

/- ### The reader loop's frame tracking (`video_loop`) -/

/-- One observable event of the reader loop `video_loop`
(standalone_server.cpp lines 1727-1751): either a tick that loads
`frame_count` from shared memory, or the detection of an emulator
disconnect (a zero-byte peek), which resets `last_frame_count` to 0. -/
inductive ReaderEvent where
  | frameCheck (current_count : Nat)
  | disconnect

/-- One iteration of the tracking logic: on `frameCheck c`, the reader
sleeps (no action) when `c` equals `last_frame_count`, otherwise it sets
`last_frame_count := c` and processes (encodes) the frame for count `c`;
on `disconnect`, `last_frame_count` is reset to 0.  Returns the new
`last_frame_count` and the processed count, if any. -/
def reader_step (last : Nat) (e : ReaderEvent) : Nat × Option Nat :=
  match e with
  | ReaderEvent.frameCheck c => if c = last then (last, none) else (c, some c)
  | ReaderEvent.disconnect => (0, none)

/-- Folding `reader_step` over an event list: final `last_frame_count`
and the sequence of frame counts the reader acted on, in order. -/
def reader_run (last : Nat) : List ReaderEvent → Nat × List Nat
  | [] => (last, [])
  | e :: es =>
    let s := reader_step last e
    let r := reader_run s.1 es
    (r.1, s.2.toList ++ r.2)

/- ### Keyframe control (`VP8Encoder`, `H264Encoder`) -/

/-- The member functions declared by class `VP8Encoder`
(standalone_server.cpp lines 493-646): constructor, destructor, `init`,
`cleanup`, `encode`, `is_keyframe` and the private `rgba_to_i420`.  The
class declares no `request_keyframe` member and no forced-keyframe
field. -/
def vp8_encoder_members : List String :=
  ["VP8Encoder", "~VP8Encoder", "init", "cleanup", "encode", "is_keyframe",
   "rgba_to_i420"]

/-- The member functions declared by class `H264Encoder`
(h264_encoder.h lines 12-48). -/
def h264_encoder_members : List String :=
  ["H264Encoder", "~H264Encoder", "type", "name", "init", "cleanup",
   "encode_i420", "encode_bgra", "encode_argb", "request_keyframe",
   "is_keyframe", "init_internal"]

/-- `VPX_EFLAG_FORCE_KF` (libvpx `vpx_encoder.h`): the encode-flags bit a
caller must set to force a keyframe. -/
def VPX_EFLAG_FORCE_KF : Nat := 1

/-- The `flags` argument `VP8Encoder::encode` passes to
`vpx_codec_encode` (standalone_server.cpp line 570): the literal `0` on
every call — no force-keyframe hint is ever passed. -/
def vp8_encode_flags : Nat := 0

/-- The fields of class `H264Encoder` relevant to keyframe forcing
(h264_encoder.h lines 40-47); `force_keyframe` is initialized `true` so
the first frame is an IDR. -/
structure H264EncoderState where
  width : Nat
  height : Nat
  fps : Nat
  force_keyframe : Bool

/-- `H264Encoder::request_keyframe` (h264_encoder.h line 32):
`force_keyframe_ = true;`. -/
def request_keyframe (s : H264EncoderState) : H264EncoderState :=
  { s with force_keyframe := true }

/-- Modelled from the spec: the body of `H264Encoder::encode_i420` is in
`h264_encoder.cpp`, which is not among the sources.  Per the spec, the
flag set by `request_keyframe` is "honored on the next encode call by
passing a force-keyframe hint to the codec": when `force_keyframe` is
set, the encoded frame is a keyframe and the flag clears; otherwise the
automatic keyframe policy (`auto_kf`) decides.  Returns whether the
encoded frame is a keyframe, together with the successor state. -/
def h264_encode_keyframe (s : H264EncoderState) (auto_kf : Bool) :
    Bool × H264EncoderState :=
  if s.force_keyframe then (true, { s with force_keyframe := false })
  else (auto_kf, s)

/- ### Color conversion (`VP8Encoder::rgba_to_i420`) -/

/-- The luma byte `rgba_to_i420` writes at plane position (row, col)
(standalone_server.cpp lines 602-613): the source pixel is addressed as
`rgba + row * stride + 4 * col` and its bytes 0, 1, 2 are taken as
r, g, b — the function assumes RGBA byte order and never consults the
shared-memory `format` tag.  `static_cast<uint8_t>(... >> 8) + 16` is
stored into a `uint8_t`, hence the two `% 256`. -/
def rgba_to_i420_y (src : Nat → Nat) (stride row col : Nat) : Nat :=
  let r := src (row * stride + 4 * col)
  let g := src (row * stride + 4 * col + 1)
  let b := src (row * stride + 4 * col + 2)
  ((66 * r + 129 * g + 25 * b + 128) / 256 % 256 + 16) % 256

/-- The 2x2 box average of channel byte `off` (0/1/2 = bytes r/g/b) for
chroma block (row, col) (standalone_server.cpp lines 619-632): the four
source pixels are addressed as `(2*row+dy) * stride + 8*col + 4*dx`,
their bytes summed and divided by 4 (C integer division). -/
def box_avg (src : Nat → Nat) (stride row col off : Nat) : Nat :=
  (src (2 * row * stride + 8 * col + off)
    + src (2 * row * stride + 8 * col + 4 + off)
    + src ((2 * row + 1) * stride + 8 * col + off)
    + src ((2 * row + 1) * stride + 8 * col + 4 + off)) / 4

/-- The chroma U byte written at plane position (row, col)
(standalone_server.cpp line 634): `>> 8` on a negative `int` is an
arithmetic shift (floor division), the `uint8_t` cast and store give the
two `% 256`. -/
def rgba_to_i420_u (src : Nat → Nat) (stride row col : Nat) : Int :=
  let r : Int := box_avg src stride row col 0
  let g : Int := box_avg src stride row col 1
  let b : Int := box_avg src stride row col 2
  ((-38 * r - 74 * g + 112 * b + 128) / 256 % 256 + 128) % 256

/-- The chroma V byte written at plane position (row, col)
(standalone_server.cpp line 635). -/
def rgba_to_i420_v (src : Nat → Nat) (stride row col : Nat) : Int :=
  let r : Int := box_avg src stride row col 0
  let g : Int := box_avg src stride row col 1
  let b : Int := box_avg src stride row col 2
  ((112 * r - 94 * g - 18 * b + 128) / 256 % 256 + 128) % 256

/-- The luma formula of the claim:
`Y = ((66 R + 129 G + 25 B + 128) >> 8) + 16`. -/
def spec_luma (R G B : Nat) : Nat := (66 * R + 129 * G + 25 * B + 128) / 256 + 16

/-- The chroma U formula of the claim:
`U = ((-38 R - 74 G + 112 B + 128) >> 8) + 128` (floor shift). -/
def spec_chroma_u (R G B : Int) : Int := (-38 * R - 74 * G + 112 * B + 128) / 256 + 128

/-- The chroma V formula of the claim:
`V = ((112 R - 94 G - 18 B + 128) >> 8) + 128` (floor shift). -/
def spec_chroma_v (R G B : Int) : Int := (112 * R - 94 * G - 18 * B + 128) / 256 + 128

/- ### RTP packetization (`WebRTCServer::build_rtp_packets`) -/

/-- The RTP sender fields of `WebRTCServer` (standalone_server.cpp lines
1675-1677): `uint32_t ssrc_`, `uint16_t seq_num_`, `uint32_t
timestamp_`. -/
structure RtpSenderState where
  ssrc : Nat
  seq_num : Nat
  timestamp : Nat

/-- The MTU ceiling of `build_rtp_packets` (1200 bytes). -/
def RTP_MTU : Nat := 1200

/-- Maximum payload bytes per packet: `MTU - 12 - 1` (12-byte RTP header
plus one VP8 payload-descriptor byte). -/
def RTP_PAYLOAD_MAX : Nat := RTP_MTU - 12 - 1

/-- One RTP packet as pushed byte by byte in the loop body of
`build_rtp_packets` (standalone_server.cpp lines 1630-1653): version
byte `0x80`, payload type 96 with the marker bit on the last fragment,
big-endian 16-bit sequence number, 32-bit timestamp and SSRC, then the
VP8 payload descriptor (S bit `0x10` on the first fragment), then the
payload slice. -/
def mkRtpPacket (seq ts ssrc : Nat) (last first : Bool)
    (payload : List Nat) : List Nat :=
  [0x80, if last then 0x80 ||| 96 else 96,
   seq / 256 % 256, seq % 256,
   ts / 2 ^ 24 % 256, ts / 2 ^ 16 % 256, ts / 2 ^ 8 % 256, ts % 256,
   ssrc / 2 ^ 24 % 256, ssrc / 2 ^ 16 % 256, ssrc / 2 ^ 8 % 256, ssrc % 256,
   if first then 0x10 else 0] ++ payload

/-- The `while (offset < frame.size())` loop of `build_rtp_packets`:
each iteration takes `min(MTU - 12 - 1, remaining)` payload bytes, marks
the packet `last` when it reaches the end of the frame, sets the S bit
only on the first iteration, and advances the 16-bit sequence counter
once per packet. -/
def buildRtpLoop (frame : List Nat) (first : Bool) (seq ts ssrc : Nat) :
    List (List Nat) :=
  if h : frame.isEmpty then []
  else
    mkRtpPacket seq ts ssrc (frame.drop RTP_PAYLOAD_MAX).isEmpty first
        (frame.take RTP_PAYLOAD_MAX)
      :: buildRtpLoop (frame.drop RTP_PAYLOAD_MAX) false ((seq + 1) % 65536)
          ts ssrc
termination_by frame.length
decreasing_by
  rw [List.length_drop]
  have hlen : 0 < frame.length := by
    cases frame with
    | nil => simp at h
    | cons a t => simp
  have hmax : 0 < RTP_PAYLOAD_MAX := by norm_num [RTP_PAYLOAD_MAX, RTP_MTU]
  omega

/-- `WebRTCServer::build_rtp_packets` (standalone_server.cpp lines
1617-1663): captures `timestamp_` for the whole frame, advances
`timestamp_` by 3000 (90 kHz / 30 fps) and runs the fragmentation loop;
`seq_num_` ends advanced once per packet (`uint16_t` wrap-around).  The
`keyframe` argument is unused, exactly as in the source. -/
def build_rtp_packets (st : RtpSenderState) (frame : List Nat)
    (keyframe : Bool) : List (List Nat) × RtpSenderState :=
  let pkts := buildRtpLoop frame true st.seq_num st.timestamp st.ssrc
  (pkts,
   { st with
      timestamp := (st.timestamp + 3000) % 2 ^ 32
      seq_num := (st.seq_num + pkts.length) % 65536 })

/-- The 16-bit sequence number carried in bytes 2-3 of an RTP packet. -/
def rtpSeqOf (pkt : List Nat) : Nat := 256 * pkt.getD 2 0 + pkt.getD 3 0

/-- The 32-bit timestamp carried in bytes 4-7 of an RTP packet. -/
def rtpTsOf (pkt : List Nat) : Nat :=
  2 ^ 24 * pkt.getD 4 0 + 2 ^ 16 * pkt.getD 5 0
    + 2 ^ 8 * pkt.getD 6 0 + pkt.getD 7 0

/-- The 32-bit SSRC carried in bytes 8-11 of an RTP packet. -/
def rtpSsrcOf (pkt : List Nat) : Nat :=
  2 ^ 24 * pkt.getD 8 0 + 2 ^ 16 * pkt.getD 9 0
    + 2 ^ 8 * pkt.getD 10 0 + pkt.getD 11 0

/-- The RTP marker bit: the top bit of byte 1. -/
def rtpMarker (pkt : List Nat) : Bool := pkt.getD 1 0 / 128 % 2 == 1

/-- The VP8 payload-descriptor start-of-partition bit: bit `0x10` of
byte 12, the byte following the 12-byte RTP header. -/
def rtpStartBit (pkt : List Nat) : Bool := pkt.getD 12 0 / 16 % 2 == 1

/- ### Minimal JSON helpers (`json_escape`, `json_get_string`) -/

/-- `json_escape` (standalone_server.cpp lines 90-101), per character:
quote, backslash, newline, carriage return and tab become two-character
escapes, everything else is copied. -/
def json_escape_char (c : Char) : List Char :=
  if c = '\"' then ['\\', '\"']
  else if c = '\\' then ['\\', '\\']
  else if c = '\n' then ['\\', 'n']
  else if c = '\r' then ['\\', 'r']
  else if c = '\t' then ['\\', 't']
  else [c]

/-- `json_escape`: escape every character of the string in order. -/
def json_escape (s : List Char) : List Char := s.flatMap json_escape_char

/-- The `switch` of `json_get_string`'s unescape loop
(standalone_server.cpp lines 120-127): `n`, `r`, `t` become control
characters; `"` and `\` (and, by the `default` arm, any other escaped
character) stand for themselves. -/
def json_unescape_char (c : Char) : Char :=
  if c = 'n' then '\n'
  else if c = 'r' then '\r'
  else if c = 't' then '\t'
  else c

/-- The copy loop of `json_get_string` (standalone_server.cpp lines
116-132), applied to the text after the opening quote: it stops at an
unescaped `"`, consumes backslash escapes pairwise, and copies a lone
trailing backslash verbatim. -/
def json_scan_string : List Char → List Char
  | [] => []
  | c :: rest =>
    if c = '\"' then []
    else if c = '\\' then
      match rest with
      | [] => ['\\']
      | e :: rest2 => json_unescape_char e :: json_scan_string rest2
    else c :: json_scan_string rest

/-- Boolean list-prefix test (the anchored comparison
`std::string::find` performs at each candidate position). -/
def isPrefixList : List Char → List Char → Bool
  | [], _ => true
  | _ :: _, [] => false
  | a :: as, b :: bs => a == b && isPrefixList as bs

/-- `std::string::find(needle)`: index of the leftmost occurrence. -/
def strFind (l : List Char) (needle : List Char) : Option Nat :=
  if isPrefixList needle l then some 0
  else
    match l with
    | [] => none
    | _ :: t => (strFind t needle).map (· + 1)

/-- `std::string::find(c)`: index of the leftmost occurrence of a
character. -/
def strFindChar : List Char → Char → Option Nat
  | [], _ => none
  | a :: t, c => if a = c then some 0 else (strFindChar t c).map (· + 1)

/-- `std::string::find(c, start)`: leftmost occurrence at or after
`start`. -/
def strFindCharFrom (l : List Char) (c : Char) (start : Nat) : Option Nat :=
  (strFindChar (l.drop start) c).map (· + start)

/-- `json_get_string` (standalone_server.cpp lines 103-135): locate
`"key"`, then the `:` after it, then the next `"`, and unescape from the
following character up to the closing quote; every failed search yields
the empty string. -/
def json_get_string (json key : List Char) : List Char :=
  match strFind json ('\"' :: (key ++ ['\"'])) with
  | none => []
  | some pos =>
    match strFindCharFrom json ':' pos with
    | none => []
    | some pos2 =>
      match strFindCharFrom json '\"' pos2 with
      | none => []
      | some pos3 => json_scan_string (json.drop (pos3 + 1))

/-- The one-entry JSON object text `{"key":"value"}`, the shape in which
the server embeds escaped strings into its messages. -/
def json_object_with (key value : List Char) : List Char :=
  '\x7b' :: '\"' :: (key ++ ('\"' :: ':' :: '\"' :: (value ++ ['\"', '\x7d'])))

/- ### Theorems -/

/-- Claim C9: for every audio ring state with 32-bit positions and the
protocol capacity, `macemu_audio_available` equals the mathematical
`(write_pos - read_pos) mod buffer_size`, `macemu_audio_free` equals
`buffer_size - available - 1`; available is `0` when the positions are
equal and `capacity - 1` exactly when free is `0`. -/
theorem audio_available_free_spec (buf : MacEmuAudioBuffer)
    (hbs : buf.buffer_size = MACEMU_AUDIO_BUFFER_SIZE)
    (hw : buf.write_pos < 2 ^ 32) (hr : buf.read_pos < 2 ^ 32) :
    (macemu_audio_available buf : Int) =
      ((buf.write_pos : Int) - (buf.read_pos : Int)) % (buf.buffer_size : Int) ∧
    macemu_audio_free buf = buf.buffer_size - macemu_audio_available buf - 1 ∧
    (buf.write_pos = buf.read_pos → macemu_audio_available buf = 0) ∧
    (macemu_audio_free buf = 0 ↔ macemu_audio_available buf = buf.buffer_size - 1) := by
  have hdvd : ((buf.write_pos + 2 ^ 32 - buf.read_pos) % 2 ^ 32) % buf.buffer_size
      = (buf.write_pos + 2 ^ 32 - buf.read_pos) % 65536 := by
    rw [hbs]
    unfold MACEMU_AUDIO_BUFFER_SIZE
    exact Nat.mod_mod_of_dvd _ (by norm_num)
  refine ⟨?_, rfl, ?_, ?_⟩
  · unfold macemu_audio_available
    rw [hdvd, hbs]
    unfold MACEMU_AUDIO_BUFFER_SIZE
    omega
  · intro heq
    unfold macemu_audio_available
    rw [hdvd, heq]
    omega
  · unfold macemu_audio_free macemu_audio_available
    unfold macemu_audio_available at hdvd
    rw [hdvd, hbs]
    unfold MACEMU_AUDIO_BUFFER_SIZE
    omega

/-- Witness for C9 at a concrete ring state (wrapped pointers:
`write_pos < read_pos`). -/
theorem audio_available_free_spec_witness :
    ((⟨65536, 10, 4294967290⟩ : MacEmuAudioBuffer).buffer_size
        = MACEMU_AUDIO_BUFFER_SIZE) ∧
    (macemu_audio_available ⟨65536, 10, 4294967290⟩ : Int) =
      ((10 : Int) - (4294967290 : Int)) % (65536 : Int) := by
  have h := audio_available_free_spec ⟨65536, 10, 4294967290⟩ (by decide)
    (by norm_num) (by norm_num)
  exact ⟨by decide, h.1⟩

/-- Claim C5: the supervisor restarts the child (with the 500 ms pause) if
and only if the child was observed to exit with code 75 and auto-start is
enabled; exit code 0 and death by a signal never trigger a restart, and
the only restart delay ever used is 500 ms. -/
theorem supervisor_restart_policy (pid : Int) (w : WaitResult) (auto_start : Bool) :
    (supervisor_restart pid w auto_start = some 500 ↔
      (0 < pid ∧ w = WaitResult.exited 75 ∧ auto_start = true)) ∧
    supervisor_restart pid (WaitResult.exited 0) auto_start = none ∧
    (∀ sig, supervisor_restart pid (WaitResult.signaled sig) auto_start = none) ∧
    (∀ d, supervisor_restart pid w auto_start = some d → d = 500) := by
  unfold supervisor_restart check_emulator_status
  refine ⟨?_, ?_, ?_, ?_⟩
  · cases w with
    | running => simp only []; split_ifs <;> simp_all
    | exited code =>
        simp only []
        split_ifs with h1 h2 h3 <;> simp_all <;> omega
    | signaled sig => simp only []; split_ifs <;> simp_all
  · simp only []; split_ifs <;> simp_all
  · intro sig; simp only []; split_ifs <;> simp_all
  · intro d
    cases w <;> simp only [] <;> split_ifs <;> simp_all

/-- Claim C7: a send failure on one peer does not abort fan-out — every
peer whose session is ready with an open track and whose own sends do not
fail receives every packet of the frame, whatever exceptions other peers'
sends raise. -/
theorem send_frame_isolation (peers : List PeerView) (npackets : Nat)
    (fails : String → Nat → Bool) (p : PeerView)
    (hp : p ∈ peers) (hready : p.ready = true) (htrack : p.has_track = true)
    (hopen : p.track_open = true) (hok : ∀ i, fails p.id i = false) :
    ∀ i, i < npackets → (p.id, i) ∈ send_frame_deliveries peers npackets fails := by
  intro i hi
  unfold send_frame_deliveries
  rw [List.mem_flatMap]
  refine ⟨p, hp, ?_⟩
  rw [hready, htrack, hopen]
  simp only [Bool.and_self, if_true]
  rw [List.mem_filterMap]
  exact ⟨i, List.mem_range.mpr hi, by rw [hok i]; simp⟩

/-- Witness for C7: two ready peers, every send to peer `b` raises, peer
`a` still receives both packets of the frame. -/
theorem send_frame_isolation_witness :
    (⟨"a", true, true, true⟩ : PeerView) ∈
        [(⟨"a", true, true, true⟩ : PeerView), ⟨"b", true, true, true⟩] ∧
    ("a", 1) ∈ send_frame_deliveries
        [⟨"a", true, true, true⟩, ⟨"b", true, true, true⟩] 2
        (fun pid _ => pid == "b") := by
  refine ⟨by simp, ?_⟩
  exact send_frame_isolation
    [⟨"a", true, true, true⟩, ⟨"b", true, true, true⟩] 2
    (fun pid _ => pid == "b") ⟨"a", true, true, true⟩
    (by simp) rfl rfl rfl (fun i => rfl) 1 (by decide)

/-- Claim C6: a (non-empty) candidate arriving before the remote
description is set is appended to the pending queue and not applied yet;
when the answer arrives and the remote description is set, the whole
queue is applied in arrival (FIFO) order and emptied — no queued
candidate is dropped. -/
theorem ice_candidates_queued_fifo (p : PeerSignalState) (cand mid : String)
    (hnd : p.has_remote_description = false) (hne : cand ≠ "") :
    (process_signaling_step p (SignalEvent.candidate cand mid)).pending_candidates
      = p.pending_candidates ++ [(cand, mid)] ∧
    (process_signaling_step p (SignalEvent.candidate cand mid)).applied_candidates
      = p.applied_candidates ∧
    (process_signaling_step p (SignalEvent.answer true)).applied_candidates
      = p.applied_candidates ++ p.pending_candidates ∧
    (process_signaling_step p (SignalEvent.answer true)).pending_candidates
      = [] ∧
    (process_signaling_step p (SignalEvent.answer true)).has_remote_description
      = true := by
  simp [process_signaling_step, hne, hnd]

/-- Witness for C6 at a concrete session state with one already-queued
candidate. -/
theorem ice_candidates_queued_fifo_witness :
    (process_signaling_step ⟨false, [("c0", "0")], []⟩
        (SignalEvent.candidate "c1" "0")).pending_candidates
      = [("c0", "0"), ("c1", "0")] ∧
    (process_signaling_step ⟨false, [("c0", "0")], []⟩
        (SignalEvent.answer true)).applied_candidates
      = [("c0", "0")] := by
  have h1 := ice_candidates_queued_fifo ⟨false, [("c0", "0")], []⟩ "c1" "0"
    rfl (by decide)
  have h2 := ice_candidates_queued_fifo ⟨false, [("c0", "0")], []⟩ "c1" "0"
    rfl (by decide)
  exact ⟨h1.1, h2.2.2.1⟩

/-- Counterexample to claim C2: the execution `frameCheck 5`,
`disconnect`, `frameCheck 5` has non-decreasing observed `frame_count`
values (the writer wrote nothing new), yet the reader processes the value
5 twice: the processed sequence `[5, 5]` is neither strictly increasing
nor duplicate-free.  The disconnect branch of `video_loop` (line 1735)
resets `last_frame_count` to 0, which re-arms the current count. -/
theorem reader_reprocesses_after_disconnect :
    List.Chain' (· ≤ ·) [5, 5] ∧
    (reader_run 0 [ReaderEvent.frameCheck 5, ReaderEvent.disconnect,
        ReaderEvent.frameCheck 5]).2 = [5, 5] ∧
    ¬ List.Chain' (· < ·)
        (reader_run 0 [ReaderEvent.frameCheck 5, ReaderEvent.disconnect,
            ReaderEvent.frameCheck 5]).2 ∧
    ¬ (reader_run 0 [ReaderEvent.frameCheck 5, ReaderEvent.disconnect,
        ReaderEvent.frameCheck 5]).2.Nodup := by
  have hrun : (reader_run 0 [ReaderEvent.frameCheck 5, ReaderEvent.disconnect,
      ReaderEvent.frameCheck 5]).2 = [5, 5] := by decide
  refine ⟨?_, hrun, ?_, ?_⟩
  · simp [List.chain'_cons]
  · rw [hrun]; simp [List.chain'_cons]
  · rw [hrun]; simp

/-- Helper for C2: with no disconnect events and non-decreasing observed
counts starting at or above `last`, the processed counts together with
`last` form a strictly increasing chain. -/
theorem reader_run_chain (counts : List Nat) (last : Nat)
    (hmono : List.Chain' (· ≤ ·) (last :: counts)) :
    List.Chain' (· < ·)
      (last :: (reader_run last (counts.map ReaderEvent.frameCheck)).2) := by
  induction counts generalizing last with
  | nil => simp [reader_run]
  | cons c cs ih =>
    rw [List.chain'_cons] at hmono
    by_cases hc : c = last
    · subst hc
      simpa [reader_run, reader_step] using ih c hmono.2
    · have h1 : last < c := lt_of_le_of_ne hmono.1 (Ne.symm hc)
      have h2 := ih c hmono.2
      simp only [List.map, reader_run, reader_step, if_neg hc,
        Option.toList_some, List.cons_append, List.nil_append,
        List.chain'_cons]
      exact ⟨h1, by simpa using h2⟩

/-- Claim C2 (amended): in any execution of the reader loop without a
disconnect, if the observed `frame_count` values are non-decreasing (the
writer only ever increments), then the sequence of frame counts the
reader processes is strictly increasing, and no value is processed
twice. -/
theorem reader_frame_counts_increasing (counts : List Nat)
    (hmono : List.Chain' (· ≤ ·) counts) :
    List.Chain' (· < ·) (reader_run 0 (counts.map ReaderEvent.frameCheck)).2 ∧
    (reader_run 0 (counts.map ReaderEvent.frameCheck)).2.Nodup := by
  have hmono0 : List.Chain' (· ≤ ·) (0 :: counts) := by
    cases counts with
    | nil => simp
    | cons c cs => exact List.chain'_cons.mpr ⟨Nat.zero_le c, hmono⟩
  have hchain := (reader_run_chain counts 0 hmono0).tail
  simp only [List.tail_cons] at hchain
  refine ⟨hchain, ?_⟩
  have hpw : List.Pairwise (· < ·)
      (reader_run 0 (counts.map ReaderEvent.frameCheck)).2 :=
    (List.chain'_iff_pairwise).mp hchain
  exact hpw.imp Nat.ne_of_lt

/-- Witness for C2 at a concrete monotone execution: observed counts
`[1, 1, 2, 5]` yield the strictly increasing processed sequence. -/
theorem reader_frame_counts_increasing_witness :
    List.Chain' (· ≤ ·) [1, 1, 2, 5] ∧
    List.Chain' (· < ·)
      (reader_run 0 ([1, 1, 2, 5].map ReaderEvent.frameCheck)).2 := by
  refine ⟨by norm_num [List.chain'_cons], ?_⟩
  exact (reader_frame_counts_increasing [1, 1, 2, 5]
    (by norm_num [List.chain'_cons])).1

/- ### Send-failure handling (claim C8) -/

/-- Counterexample to claim C8: a failed send (0 of the 2 bytes of the
line written) on a live connection only returns `false`; the connected
socket stays open and the connected flag stays set — `send_to_emulator`
does not mark the connection dead, contrary to the claim. -/
theorem send_failure_leaves_connection :
    (send_to_emulator ⟨4, 5, true⟩ ['x'] 0).1 = false ∧
    (send_to_emulator ⟨4, 5, true⟩ ['x'] 0).2.connected = true ∧
    (send_to_emulator ⟨4, 5, true⟩ ['x'] 0).2.control_socket = 5 := by decide

/-- Claim C8 (amended): a failed send only reports `false` to its caller
and leaves the connection state unchanged; the connection is marked dead
— connected socket closed, connected flag cleared, listening socket left
open for re-accept — only by `close_emulator_connection`, which the
server invokes when a zero-byte peek detects peer closure or the child
process is reaped. -/
theorem send_failure_behaviour (st : ControlConn) (msg : List Char) (sent : Int)
    (hconn : 0 ≤ st.control_socket) (hfail : sent ≠ (msg.length : Int) + 1) :
    send_to_emulator st msg sent = (false, st) ∧
    (close_emulator_connection st).connected = false ∧
    (close_emulator_connection st).control_socket = -1 ∧
    (close_emulator_connection st).listen_socket = st.listen_socket := by
  refine ⟨?_, rfl, rfl, rfl⟩
  unfold send_to_emulator
  rw [if_neg (by omega)]
  simp [hfail]

/-- Witness for the amended C8 at a concrete connection state and short
write. -/
theorem send_failure_behaviour_witness :
    (0 : Int) ≤ (⟨4, 5, true⟩ : ControlConn).control_socket ∧
    send_to_emulator ⟨4, 5, true⟩ ['x'] 1 = (false, ⟨4, 5, true⟩) := by
  refine ⟨by norm_num, ?_⟩
  exact (send_failure_behaviour ⟨4, 5, true⟩ ['x'] 1 (by norm_num) (by decide)).1

/-- Counterexample to claim C3: the VP8 encoder — the encoder the
standalone server's pipeline actually uses — declares no
`request_keyframe` member at all (only the H.264 encoder does), and its
single `vpx_codec_encode` call always passes encode flags `0`, which
does not contain `VPX_EFLAG_FORCE_KF`; so "for every encoder state,
calling request_keyframe()" is false of the VP8 encoder. -/
theorem vp8_has_no_request_keyframe :
    "request_keyframe" ∉ vp8_encoder_members ∧
    "request_keyframe" ∈ h264_encoder_members ∧
    vp8_encode_flags &&& VPX_EFLAG_FORCE_KF = 0 := by decide

/-- Claim C3 (amended): for the H.264 encoder, `request_keyframe` sets
the forced-keyframe flag, and the next encode call emits a keyframe and
clears the flag, whatever the automatic keyframe policy would decide;
the VP8 encoder has no `request_keyframe` method and always passes
encode flags `0` (no force-keyframe hint). -/
theorem request_keyframe_forces_next_frame (s : H264EncoderState)
    (auto_kf : Bool) :
    (request_keyframe s).force_keyframe = true ∧
    (h264_encode_keyframe (request_keyframe s) auto_kf).1 = true ∧
    (h264_encode_keyframe (request_keyframe s) auto_kf).2.force_keyframe
      = false ∧
    vp8_encode_flags &&& VPX_EFLAG_FORCE_KF = 0 := by
  refine ⟨rfl, ?_, ?_, by decide⟩ <;> simp [h264_encode_keyframe, request_keyframe]

/-- Counterexample to claim C4: a BGRA frame whose only pixel has bytes
(255, 0, 0, 255) — that is B = 255, G = 0, R = 0, a pure blue pixel.
The conversion reads byte 0 as red and produces luma 82, while the
claimed formula applied to the pixel's actual R = 0, G = 0, B = 255
gives 41: the conversion does not satisfy the claim on BGRA frames (it
ignores the format tag and always assumes RGBA order). -/
theorem bgra_luma_mismatch :
    rgba_to_i420_y
        (fun i => if i = 0 then 255 else if i = 3 then 255 else 0) 8 0 0
      = 82 ∧
    spec_luma 0 0 255 = 41 ∧ (82 : Nat) ≠ 41 := by decide

/-- Helper bound for C4: a 2x2 box average of bytes is a byte. -/
theorem box_avg_le (src : Nat → Nat) (stride row col off : Nat)
    (hbytes : ∀ i, src i ≤ 255) : box_avg src stride row col off ≤ 255 := by
  unfold box_avg
  have h1 := hbytes (2 * row * stride + 8 * col + off)
  have h2 := hbytes (2 * row * stride + 8 * col + 4 + off)
  have h3 := hbytes ((2 * row + 1) * stride + 8 * col + off)
  have h4 := hbytes ((2 * row + 1) * stride + 8 * col + 4 + off)
  omega

/-- Claim C4 (amended): for sources in RGBA byte order the conversion
produces exactly the claimed BT.601 values — luma from the claimed
integer formula at the stride-addressed pixel, chroma from the claimed
formulas applied to the 2x2 box-averaged RGB — with rows addressed by
`stride`, not `width`.  (For BGRA sources the format tag is ignored and
R and B are exchanged in the formulas.) -/
theorem rgba_conversion_formulas (src : Nat → Nat) (stride row col : Nat)
    (hbytes : ∀ i, src i ≤ 255) :
    rgba_to_i420_y src stride row col
      = spec_luma (src (row * stride + 4 * col))
          (src (row * stride + 4 * col + 1))
          (src (row * stride + 4 * col + 2)) ∧
    rgba_to_i420_u src stride row col
      = spec_chroma_u (box_avg src stride row col 0)
          (box_avg src stride row col 1) (box_avg src stride row col 2) ∧
    rgba_to_i420_v src stride row col
      = spec_chroma_v (box_avg src stride row col 0)
          (box_avg src stride row col 1) (box_avg src stride row col 2) := by
  have hr := box_avg_le src stride row col 0 hbytes
  have hg := box_avg_le src stride row col 1 hbytes
  have hb := box_avg_le src stride row col 2 hbytes
  refine ⟨?_, ?_, ?_⟩
  · have h1 := hbytes (row * stride + 4 * col)
    have h2 := hbytes (row * stride + 4 * col + 1)
    have h3 := hbytes (row * stride + 4 * col + 2)
    unfold rgba_to_i420_y spec_luma
    dsimp only
    omega
  · unfold rgba_to_i420_u spec_chroma_u
    dsimp only
    omega
  · unfold rgba_to_i420_v spec_chroma_v
    dsimp only
    omega

/-- Witness for the amended C4 on a concrete RGBA frame (2x2 pixels,
stride 8, a red-ish gradient). -/
theorem rgba_conversion_formulas_witness :
    (∀ i, (fun j => j % 7 * 30) i ≤ 255) ∧
    rgba_to_i420_y (fun j => j % 7 * 30) 8 0 0
      = spec_luma ((fun j => j % 7 * 30) 0) ((fun j => j % 7 * 30) 1)
          ((fun j => j % 7 * 30) 2) := by
  have hb : ∀ i, (fun j => j % 7 * 30) i ≤ 255 := by
    intro i
    have : i % 7 < 7 := Nat.mod_lt _ (by norm_num)
    simp only []
    omega
  exact ⟨hb, (rgba_conversion_formulas (fun j => j % 7 * 30) 8 0 0 hb).1⟩

theorem mkRtpPacket_seq (seq ts ssrc : Nat) (last first : Bool)
    (payload : List Nat) (h : seq < 65536) :
    rtpSeqOf (mkRtpPacket seq ts ssrc last first payload) = seq := by
  simp only [rtpSeqOf, mkRtpPacket, List.cons_append, List.nil_append,
    List.getD_cons_succ, List.getD_cons_zero]
  omega

theorem mkRtpPacket_ts (seq ts ssrc : Nat) (last first : Bool)
    (payload : List Nat) (h : ts < 2 ^ 32) :
    rtpTsOf (mkRtpPacket seq ts ssrc last first payload) = ts := by
  simp only [rtpTsOf, mkRtpPacket, List.cons_append, List.nil_append,
    List.getD_cons_succ, List.getD_cons_zero]
  omega

theorem mkRtpPacket_ssrc (seq ts ssrc : Nat) (last first : Bool)
    (payload : List Nat) (h : ssrc < 2 ^ 32) :
    rtpSsrcOf (mkRtpPacket seq ts ssrc last first payload) = ssrc := by
  simp only [rtpSsrcOf, mkRtpPacket, List.cons_append, List.nil_append,
    List.getD_cons_succ, List.getD_cons_zero]
  omega

theorem mkRtpPacket_marker (seq ts ssrc : Nat) (last first : Bool)
    (payload : List Nat) :
    rtpMarker (mkRtpPacket seq ts ssrc last first payload) = last := by
  cases last <;>
    simp [rtpMarker, mkRtpPacket, List.getD_cons_succ, List.getD_cons_zero]

theorem mkRtpPacket_start (seq ts ssrc : Nat) (last first : Bool)
    (payload : List Nat) :
    rtpStartBit (mkRtpPacket seq ts ssrc last first payload) = first := by
  cases first <;>
    simp [rtpStartBit, mkRtpPacket, List.getD_cons_succ, List.getD_cons_zero]

theorem buildRtpLoop_eq_nil (frame : List Nat) (first : Bool)
    (seq ts ssrc : Nat) :
    buildRtpLoop frame first seq ts ssrc = [] ↔ frame.isEmpty = true := by
  rw [buildRtpLoop]
  split <;> simp_all

/-- Combined per-packet characterization of the fragmentation loop: with
in-range counters, packet `i` of a frame carries sequence number
`(seq + i) % 2^16`, the shared timestamp and SSRC, the marker bit exactly
on the final packet and the start-of-partition bit exactly on the first
(when the loop is entered with `first = true`). -/
theorem buildRtpLoop_props (frame : List Nat) (first : Bool)
    (seq ts ssrc : Nat) :
    seq < 65536 → ts < 2 ^ 32 → ssrc < 2 ^ 32 →
    ∀ i, i < (buildRtpLoop frame first seq ts ssrc).length →
      rtpSeqOf ((buildRtpLoop frame first seq ts ssrc).getD i [])
          = (seq + i) % 65536 ∧
      rtpTsOf ((buildRtpLoop frame first seq ts ssrc).getD i []) = ts ∧
      rtpSsrcOf ((buildRtpLoop frame first seq ts ssrc).getD i []) = ssrc ∧
      (rtpMarker ((buildRtpLoop frame first seq ts ssrc).getD i []) = true
        ↔ i = (buildRtpLoop frame first seq ts ssrc).length - 1) ∧
      (rtpStartBit ((buildRtpLoop frame first seq ts ssrc).getD i []) = true
        ↔ (first = true ∧ i = 0)) := by
  induction frame, first, seq, ts, ssrc using buildRtpLoop.induct with
  | case1 frame first seq ts ssrc h =>
    intro _ _ _ i hi
    rw [buildRtpLoop, dif_pos h] at hi
    simp at hi
  | case2 frame first seq ts ssrc h ih =>
    intro hseq hts hssrc i hi
    have hrw : buildRtpLoop frame first seq ts ssrc
        = mkRtpPacket seq ts ssrc (frame.drop RTP_PAYLOAD_MAX).isEmpty first
            (frame.take RTP_PAYLOAD_MAX)
          :: buildRtpLoop (frame.drop RTP_PAYLOAD_MAX) false
              ((seq + 1) % 65536) ts ssrc := by
      rw [buildRtpLoop, dif_neg h]
    rw [hrw] at hi
    rw [hrw]
    cases i with
    | zero =>
      simp only [List.getD_cons_zero, List.length_cons]
      refine ⟨?_, mkRtpPacket_ts _ _ _ _ _ _ hts,
        mkRtpPacket_ssrc _ _ _ _ _ _ hssrc, ?_, ?_⟩
      · rw [mkRtpPacket_seq _ _ _ _ _ _ hseq]; omega
      · rw [mkRtpPacket_marker]
        constructor
        · intro hemp
          have hnil : buildRtpLoop (frame.drop RTP_PAYLOAD_MAX) false
              ((seq + 1) % 65536) ts ssrc = [] :=
            (buildRtpLoop_eq_nil _ _ _ _ _).mpr hemp
          rw [hnil]
          simp
        · intro hlen
          have hnil : buildRtpLoop (frame.drop RTP_PAYLOAD_MAX) false
              ((seq + 1) % 65536) ts ssrc = [] := by
            cases hrec : buildRtpLoop (frame.drop RTP_PAYLOAD_MAX) false
                ((seq + 1) % 65536) ts ssrc with
            | nil => rfl
            | cons a l => rw [hrec] at hlen; simp at hlen
          exact (buildRtpLoop_eq_nil _ _ _ _ _).mp hnil
      · rw [mkRtpPacket_start]
        cases first <;> simp
    | succ j =>
      simp only [List.getD_cons_succ, List.length_cons] at hi ⊢
      have hj : j < (buildRtpLoop (frame.drop RTP_PAYLOAD_MAX) false
          ((seq + 1) % 65536) ts ssrc).length := by omega
      have hin := ih (Nat.mod_lt _ (by norm_num)) hts hssrc j hj
      refine ⟨?_, hin.2.1, hin.2.2.1, ?_, ?_⟩
      · rw [hin.1]; omega
      · rw [hin.2.2.2.1]
        omega
      · rw [hin.2.2.2.2]
        simp

/-- Claim C1: for every non-empty encoded frame and in-range sender
state, at least one RTP packet is produced, and packet `i` of the frame
carries sequence number `(seq_num + i) % 2^16` (the shared 16-bit
counter incremented once per packet, hence contiguous), the timestamp
and SSRC shared by all packets of the frame, the marker bit exactly on
the final packet, and the start-of-partition bit `0x10` in the byte
following the 12-byte RTP header exactly on the first packet. -/
theorem rtp_packets_frame_invariants (st : RtpSenderState) (frame : List Nat)
    (keyframe : Bool) (hne : frame ≠ [])
    (hseq : st.seq_num < 65536) (hts : st.timestamp < 2 ^ 32)
    (hssrc : st.ssrc < 2 ^ 32) :
    (build_rtp_packets st frame keyframe).1 ≠ [] ∧
    ∀ i, i < (build_rtp_packets st frame keyframe).1.length →
      rtpSeqOf ((build_rtp_packets st frame keyframe).1.getD i [])
          = (st.seq_num + i) % 65536 ∧
      rtpTsOf ((build_rtp_packets st frame keyframe).1.getD i [])
          = st.timestamp ∧
      rtpSsrcOf ((build_rtp_packets st frame keyframe).1.getD i [])
          = st.ssrc ∧
      (rtpMarker ((build_rtp_packets st frame keyframe).1.getD i []) = true
        ↔ i = (build_rtp_packets st frame keyframe).1.length - 1) ∧
      (rtpStartBit ((build_rtp_packets st frame keyframe).1.getD i []) = true
        ↔ i = 0) := by
  have hfst : (build_rtp_packets st frame keyframe).1
      = buildRtpLoop frame true st.seq_num st.timestamp st.ssrc := rfl
  have hprops := buildRtpLoop_props frame true st.seq_num st.timestamp
    st.ssrc hseq hts hssrc
  rw [hfst]
  constructor
  · intro hnil
    exact hne (List.isEmpty_iff.mp
      ((buildRtpLoop_eq_nil _ _ _ _ _).mp hnil))
  · intro i hi
    have h := hprops i hi
    refine ⟨h.1, h.2.1, h.2.2.1, h.2.2.2.1, ?_⟩
    rw [h.2.2.2.2]
    simp

/-- Witness for C1 at a concrete sender state and 3-byte frame. -/
theorem rtp_packets_frame_invariants_witness :
    ([1, 2, 3] : List Nat) ≠ [] ∧
    rtpSeqOf ((build_rtp_packets ⟨1, 0, 0⟩ [1, 2, 3] true).1.getD 0 [])
        = (0 + 0) % 65536 ∧
    rtpTsOf ((build_rtp_packets ⟨1, 0, 0⟩ [1, 2, 3] true).1.getD 0 []) = 0 ∧
    (rtpStartBit ((build_rtp_packets ⟨1, 0, 0⟩ [1, 2, 3] true).1.getD 0 [])
        = true ↔ 0 = 0) := by
  have h := rtp_packets_frame_invariants ⟨1, 0, 0⟩ [1, 2, 3] true
    (by decide) (by norm_num) (by norm_num) (by norm_num)
  have hlen : 0 < (build_rtp_packets ⟨1, 0, 0⟩ [1, 2, 3] true).1.length :=
    List.length_pos.mpr h.1
  have h0 := h.2 0 hlen
  exact ⟨by decide, h0.1, h0.2.1, h0.2.2.2.2⟩

theorem isPrefixList_append (l t : List Char) :
    isPrefixList l (l ++ t) = true := by
  induction l with
  | nil => rfl
  | cons a as ih => simp [isPrefixList, ih]

theorem strFindChar_append_of_not_mem (l₁ l₂ : List Char) (c : Char)
    (h : c ∉ l₁) :
    strFindChar (l₁ ++ l₂) c = (strFindChar l₂ c).map (· + l₁.length) := by
  induction l₁ with
  | nil =>
    simp only [List.nil_append, List.length_nil]
    cases hx : strFindChar l₂ c <;> simp [hx]
  | cons a t ih =>
    have ha : a ≠ c := fun hac => h (hac ▸ List.mem_cons_self a t)
    have ht : c ∉ t := fun hct => h (List.mem_cons_of_mem a hct)
    rw [List.cons_append]
    show (if a = c then some 0 else (strFindChar (t ++ l₂) c).map (· + 1))
      = (strFindChar l₂ c).map (· + (a :: t).length)
    rw [if_neg ha, ih ht]
    cases strFindChar l₂ c <;> simp <;> omega

theorem json_scan_string_cons (c : Char) (rest : List Char) :
    json_scan_string (c :: rest)
      = if c = '\"' then []
        else if c = '\\' then
          match rest with
          | [] => ['\\']
          | e :: rest2 => json_unescape_char e :: json_scan_string rest2
        else c :: json_scan_string rest := by
  rw [json_scan_string.eq_def]

theorem json_scan_escape (s tail : List Char) :
    json_scan_string (json_escape s ++ '\"' :: tail) = s := by
  induction s with
  | nil =>
    show json_scan_string ('\"' :: tail) = []
    rw [json_scan_string_cons, if_pos rfl]
  | cons c cs ih =>
    have hesc : json_escape (c :: cs) = json_escape_char c ++ json_escape cs := by
      simp [json_escape]
    rw [hesc, List.append_assoc]
    by_cases h1 : c = '\"'
    · subst h1
      simp [json_escape_char, json_scan_string_cons, json_unescape_char, ih]
    · by_cases h2 : c = '\\'
      · subst h2
        simp [json_escape_char, json_scan_string_cons, json_unescape_char, ih]
      · by_cases h3 : c = '\n'
        · subst h3
          simp [json_escape_char, json_scan_string_cons, json_unescape_char, ih]
        · by_cases h4 : c = '\r'
          · subst h4
            simp [json_escape_char, json_scan_string_cons, json_unescape_char, ih]
          · by_cases h5 : c = '\t'
            · subst h5
              simp [json_escape_char, json_scan_string_cons, json_unescape_char, ih]
            · rw [json_escape_char, if_neg h1, if_neg h2, if_neg h3,
                if_neg h4, if_neg h5]
              rw [List.singleton_append, json_scan_string_cons,
                if_neg h1, if_neg h2, ih]

theorem strFindChar_cons (a : Char) (t : List Char) (c : Char) :
    strFindChar (a :: t) c
      = if a = c then some 0 else (strFindChar t c).map (· + 1) := rfl

theorem strFind_of_isPrefixList (l needle : List Char)
    (h : isPrefixList needle l = true) : strFind l needle = some 0 := by
  rw [strFind.eq_def, if_pos h]

theorem strFind_cons_of_head_miss (a : Char) (t needle : List Char)
    (h : isPrefixList needle (a :: t) = false) :
    strFind (a :: t) needle = (strFind t needle).map (· + 1) := by
  rw [strFind.eq_def, if_neg (by simp [h])]

theorem isPrefixList_cons_cons (a b : Char) (as bs : List Char) :
    isPrefixList (a :: as) (b :: bs) = ((a == b) && isPrefixList as bs) := rfl

theorem isPrefixList_append_cons (l : List Char) (x : Char) (t : List Char) :
    isPrefixList (l ++ [x]) (l ++ x :: t) = true := by
  induction l with
  | nil => simp [isPrefixList]
  | cons a as ih => simp [isPrefixList, ih]

theorem drop_two_cons (a b : Char) (l : List Char) (n : Nat) :
    (a :: b :: l).drop (n + 2) = l.drop n := by
  rw [show n + 2 = (n + 1) + 1 from rfl, List.drop_succ_cons,
    List.drop_succ_cons]

theorem drop_append_plus (l x : List Char) (n : Nat) :
    (l ++ x).drop (l.length + n) = x.drop n := by
  induction l with
  | nil => simp
  | cons a t ih =>
    rw [List.cons_append, List.length_cons,
      show t.length + 1 + n = (t.length + n) + 1 from by omega,
      List.drop_succ_cons]
    exact ih

/-- Claim C10: extracting `key` from the object text that embeds
`json_escape s` as the quoted value of `key` returns exactly `s`, for
every string `s` and every key free of quote, backslash and colon
characters — escaping then unescaping round-trips. -/
theorem json_escape_roundtrip (key s : List Char)
    (hq : '\"' ∉ key) (hb : '\\' ∉ key) (hc : ':' ∉ key) :
    json_get_string (json_object_with key (json_escape s)) key = s := by
  have hpre0 : isPrefixList ('\"' :: (key ++ ['\"']))
      (json_object_with key (json_escape s)) = false := by
    rw [json_object_with, isPrefixList_cons_cons,
      show ('\"' == '\x7b') = false from by decide, Bool.false_and]
  have hpre1 : isPrefixList ('\"' :: (key ++ ['\"']))
      ('\"' :: (key ++ ('\"' :: ':' :: '\"'
        :: (json_escape s ++ ['\"', '\x7d'])))) = true := by
    rw [isPrefixList_cons_cons, isPrefixList_append_cons,
      show ('\"' == '\"') = true from by decide, Bool.true_and]
  have hfind : strFind (json_object_with key (json_escape s))
      ('\"' :: (key ++ ['\"'])) = some 1 := by
    rw [json_object_with] at hpre0
    rw [json_object_with, strFind_cons_of_head_miss _ _ _ hpre0,
      strFind_of_isPrefixList _ _ hpre1]
    rfl
  have hcolon : strFindCharFrom (json_object_with key (json_escape s)) ':' 1
      = some (key.length + 3) := by
    rw [strFindCharFrom, json_object_with, List.drop_one, List.tail_cons,
      strFindChar_cons, if_neg (by decide),
      strFindChar_append_of_not_mem _ _ _ hc,
      strFindChar_cons, if_neg (by decide),
      strFindChar_cons, if_pos rfl]
    simp only [Option.map_some']
    congr 1
    omega
  have hquote : strFindCharFrom (json_object_with key (json_escape s)) '\"'
      (key.length + 3) = some (key.length + 4) := by
    rw [strFindCharFrom, json_object_with,
      show key.length + 3 = (key.length + 1) + 2 from rfl,
      drop_two_cons,
      show key.length + 1 = key.length + 1 from rfl,
      drop_append_plus key _ 1]
    rw [show (('\"' :: ':' :: '\"' :: (json_escape s ++ ['\"', '\x7d'])).drop 1)
        = ':' :: '\"' :: (json_escape s ++ ['\"', '\x7d']) from rfl,
      strFindChar_cons, if_neg (by decide), strFindChar_cons, if_pos rfl]
    simp only [Option.map_some']
    congr 1
    omega
  unfold json_get_string
  rw [hfind]
  dsimp only
  rw [hcolon]
  dsimp only
  rw [hquote]
  dsimp only
  rw [json_object_with,
    show key.length + 4 + 1 = (key.length + 3) + 2 from rfl,
    drop_two_cons, drop_append_plus key _ 3]
  exact json_scan_escape s ['\x7d']

/-- Witness for C10 at the key `sdp` and a value containing a quote, a
backslash and a newline. -/
theorem json_escape_roundtrip_witness :
    ('\"' ∉ ['s', 'd', 'p'] ∧ '\\' ∉ ['s', 'd', 'p'] ∧ ':' ∉ ['s', 'd', 'p']) ∧
    json_get_string
        (json_object_with ['s', 'd', 'p']
          (json_escape ['a', '\"', '\\', '\n', 'b']))
        ['s', 'd', 'p']
      = ['a', '\"', '\\', '\n', 'b'] := by
  refine ⟨⟨by decide, by decide, by decide⟩, ?_⟩
  exact json_escape_roundtrip ['s', 'd', 'p'] ['a', '\"', '\\', '\n', 'b']
    (by decide) (by decide) (by decide)
